import Mathlib

/-
Verification development for the GIP configuration and CE/SE bind layer
(src/gip/lib/python/gip_common.py and src/gip/lib/python/gip_cese_bind.py).

The Python code is shallowly embedded: strings are Lean String values
(with helpers over their character lists, matching CPython byte-string
semantics on ASCII), the INI configuration object is an explicit list of
sections, Python integers are Int, and code that can raise returns
Except or Option.  External modules that are not part of the repository
(the batch-system query modules, gip_storage.getPath, the
condor_ce_config_val subprocess) are modelled as an explicit environment
of inputs.
-/

namespace GIP

/-! ## Python string primitives (ASCII semantics) -/

/-- Model of the Python str.lower method: lowercase every character. -/
def pyLower (s : String) : String := ⟨s.data.map Char.toLower⟩

/-- Model of the Python str.startswith method. -/
def pyStartswithStr (s p : String) : Bool := p.data.isPrefixOf s.data

/-- Model of Python slicing s[n:], used when a leading literal is stripped. -/
def pyDrop (s : String) (n : Nat) : String := ⟨s.data.drop n⟩

/-- Model of the test s.find(c) >= 0 for a single character c: membership. -/
def pyFindChar (s : String) (c : Char) : Bool := s.data.contains c

/-- Strip leading and trailing whitespace from a character list
(model of the Python str.strip method with no argument). -/
def pyStripL (l : List Char) : List Char :=
  ((l.dropWhile Char.isWhitespace).reverse.dropWhile Char.isWhitespace).reverse

/-- Model of the Python str.strip method. -/
def pyStrip (s : String) : String := ⟨pyStripL s.data⟩

/-- Does the character list s contain sub as a contiguous substring?
Model of the test s.find(sub) >= 0 on strings. -/
def containsSub (s sub : List Char) : Bool :=
  sub.isPrefixOf s ||
    match s with
    | [] => false
    | _ :: t => containsSub t sub

/-- String version of containsSub. -/
def containsSubS (s sub : String) : Bool := containsSub s.data sub.data

/-- One splitting pass of the Python str.split method with a fixed,
non-empty separator: cur is the current (reversed) token.  The fuel
argument is structural so the function evaluates inside the kernel; the
callers pass one more than the length of the string, which the length
lemma below shows is always enough. -/
def pySplitAuxF (sep : List Char) : Nat → List Char → List Char → List (List Char)
  | 0, cur, _ => [cur.reverse]
  | Nat.succ fuel, cur, s =>
    match s with
    | [] => [cur.reverse]
    | c :: rest =>
      if sep.isPrefixOf (c :: rest) then
        cur.reverse :: pySplitAuxF sep fuel [] (rest.drop (sep.length - 1))
      else
        pySplitAuxF sep fuel (c :: cur) rest

/-- Model of the Python str.split method with a non-empty separator. -/
def pySplitS (s sep : String) : List String :=
  (pySplitAuxF sep.data (s.data.length + 1) [] s.data).map (fun l => ⟨l⟩)

/-- Number of (leftmost, non-overlapping) occurrences of sub in s, with
the same scanning order as pySplitAux. -/
def countSub (sep : List Char) : List Char → Nat
  | [] => 0
  | c :: rest =>
    if sep.isPrefixOf (c :: rest) then
      countSub sep (rest.drop (sep.length - 1)) + 1
    else
      countSub sep rest
  termination_by s => s.length
  decreasing_by
    all_goals simp only [List.length_cons, List.length_drop]
    all_goals omega

/-- Model of the Python str function applied to a bool. -/
def pyStrBool (b : Bool) : String := if b then "True" else "False"

/-- Model of Python truthiness of an optional string (None and the empty
string are falsy). -/
def pyTruthy : Option String → Bool
  | some s => s ≠ ""
  | none => false

/-! ## Decimal printing and parsing of integers

Models of the Python str and int functions on integers, used by the
defaulted accessors when the default value takes the string round trip. -/

/-- The decimal digit character for d < 10. -/
def digitChar (d : Nat) : Char := Char.ofNat (48 + d)

/-- The decimal digit list of a natural number (most significant
first), with a structural fuel argument; any fuel above the number
itself is enough. -/
def natDigitsAux : Nat → Nat → List Char
  | 0, _ => []
  | Nat.succ fuel, n =>
    if n < 10 then [digitChar n]
    else natDigitsAux fuel (n / 10) ++ [digitChar (n % 10)]

/-- The decimal digit list of a natural number (most significant first). -/
def natDigits (n : Nat) : List Char := natDigitsAux (n + 1) n

/-- The decimal character list of an integer, with a sign for negatives
(model of the Python str function on an int). -/
def intDigits (i : Int) : List Char :=
  if i < 0 then '-' :: natDigits i.natAbs else natDigits i.natAbs

/-- Model of the Python str function on an int. -/
def pyStrOfInt (i : Int) : String := ⟨intDigits i⟩

/-- The value of a decimal digit character, if it is one. -/
def digitVal (c : Char) : Option Nat :=
  if 48 ≤ c.toNat ∧ c.toNat ≤ 57 then some (c.toNat - 48) else none

/-- Accumulating decimal parser over a digit list. -/
def parseDigitsAux (acc : Nat) : List Char → Option Nat
  | [] => some acc
  | c :: cs =>
    match digitVal c with
    | some d => parseDigitsAux (acc * 10 + d) cs
    | none => none

/-- Parse a non-empty all-digit list as a natural number. -/
def pyParseNat (l : List Char) : Option Nat :=
  match l with
  | [] => none
  | _ => parseDigitsAux 0 l

/-- Model of the Python int function on a (stripped) string: an optional
sign followed by decimal digits; none models a raised ValueError. -/
def pyParseInt (l : List Char) : Option Int :=
  match l with
  | [] => none
  | c :: rest =>
    if c = '-' then (pyParseNat rest).map (fun n => -(Int.ofNat n))
    else if c = '+' then (pyParseNat rest).map Int.ofNat
    else (pyParseNat l).map Int.ofNat

/-! ## The regex split used for comma or whitespace separated lists

split_re = re.compile("\\s*,?\\s*"); re.split skips zero-width matches,
so the string is cut at every maximal non-empty run matching the
pattern (whitespace, an optional comma, whitespace). -/

/-- Consume a maximal run of whitespace: count consumed and the rest. -/
def munchWS : List Char → Nat × List Char
  | [] => (0, [])
  | c :: r =>
    if c.isWhitespace then
      let p := munchWS r
      (p.1 + 1, p.2)
    else (0, c :: r)

/-- Length of the greedy match of the pattern at the head of l:
whitespace, an optional comma, whitespace. -/
def wsCommaLen (l : List Char) : Nat :=
  match (munchWS l).2 with
  | ',' :: r2 => (munchWS l).1 + 1 + (munchWS r2).1
  | _ => (munchWS l).1

theorem munchWS_le (l : List Char) : (munchWS l).2.length + (munchWS l).1 = l.length := by
  induction l with
  | nil => simp [munchWS]
  | cons c r ih =>
    by_cases h : c.isWhitespace
    · simp [munchWS, h]
      omega
    · simp [munchWS, h]

theorem wsCommaLen_le (l : List Char) : wsCommaLen l ≤ l.length := by
  have h1 := munchWS_le l
  unfold wsCommaLen
  split
  · rename_i r2 heq
    have h2 := munchWS_le r2
    rw [heq] at h1
    simp only [List.length_cons] at h1
    omega
  · omega

/-- Split on maximal non-empty runs of the pattern (the behaviour of
re.split with this pattern on Python 2). -/
def pySplitWSAux : List Char → List Char → List (List Char)
  | cur, [] => [cur.reverse]
  | cur, c :: rest =>
    if wsCommaLen (c :: rest) = 0 then pySplitWSAux (c :: cur) rest
    else cur.reverse :: pySplitWSAux [] ((c :: rest).drop (wsCommaLen (c :: rest)))
  termination_by _ s => s.length
  decreasing_by
    all_goals simp only [List.length_drop, List.length_cons]
    all_goals omega

/-- Model of split_re.split on a string. -/
def pySplitWS (s : String) : List String :=
  (pySplitWSAux [] s.data).map (fun l => ⟨l⟩)

/-! ## The configuration object

A ConfigParser object is modelled as an ordered list of named sections,
each an ordered list of (option, value) pairs.  ConfigParser raises
NoSectionError / NoOptionError on a missing key; raised exceptions are
modelled with the GipErr error type. -/

/-- One INI section: its name and its (option, value) pairs. -/
structure ConfigSection where
  name : String
  options : List (String × String)
deriving DecidableEq

/-- The whole configuration object. -/
structure Config where
  sections : List ConfigSection
deriving DecidableEq

/-- Exceptions raised by the embedded code. -/
inductive GipErr where
  | noSection : String → GipErr
  | noOption : String → String → GipErr
  | valueError : String → GipErr
  | recursionLimit : GipErr
deriving DecidableEq

/-- The list of section names, in order (model of cp.sections()). -/
def sectionNames (cp : Config) : List String := cp.sections.map (fun s => s.name)

/-- Find a section object by name. -/
def findSection (cp : Config) (s : String) : Option ConfigSection :=
  cp.sections.find? (fun sec => sec.name == s)

/-- Raw lookup of an option value: none when the section or option is
absent (the case where ConfigParser.get raises). -/
def cpRawGet (cp : Config) (s o : String) : Option String :=
  (findSection cp s).bind (fun sec => (sec.options.find? (fun p => p.1 == o)).map (fun p => p.2))

/-- Model of the raw ConfigParser.get call, raising NoSectionError or
NoOptionError exactly where Python would. -/
def cpRawGetE (cp : Config) (s o : String) : Except GipErr String :=
  match findSection cp s with
  | none => Except.error (GipErr.noSection s)
  | some sec =>
    match (sec.options.find? (fun p => p.1 == o)).map (fun p => p.2) with
    | none => Except.error (GipErr.noOption s o)
    | some v => Except.ok v

/-- Model of the raw ConfigParser.getboolean call of Python 2: the
lowercased value must be one of the eight literal boolean states,
otherwise a ValueError is raised. -/
def cpRawGetbooleanE (cp : Config) (s o : String) : Except GipErr Bool :=
  match cpRawGetE cp s o with
  | Except.error e => Except.error e
  | Except.ok v =>
    if pyLower v ∈ ["1", "yes", "true", "on"] then Except.ok true
    else if pyLower v ∈ ["0", "no", "false", "off"] then Except.ok false
    else Except.error (GipErr.valueError ("Not a boolean: " ++ v))

/-! ## The defaulted accessors (gip_common.py lines 574-661) -/

/-- Optional-value form of cp_get: cp_get with a None default.  Mirrors
the source: an empty section or option name short-circuits to the
default, otherwise the raw lookup is tried and its exception caught. -/
def cp_getStrOpt (cp : Config) (sec opt : String) : Option String :=
  if sec = "" || opt = "" then none
  else cpRawGet cp sec opt

/-- Model of cp_get (gip_common.py line 574): the stored string, or the
default when the section or option is absent. -/
def cp_get (cp : Config) (sec opt default : String) : String :=
  match cp_getStrOpt cp sec opt with
  | some v => v
  | none => default

/-- Classifier on the looked-up value used by cp_getBoolean
(gip_common.py lines 618-623): the lowercased value is scanned for the
characters t, y, 1 (true) and then f, n, 0 (false). -/
def boolFromVal (val : String) (default : Bool) : Bool :=
  if pyFindChar (pyLower val) 't' || pyFindChar (pyLower val) 'y'
      || pyFindChar (pyLower val) '1' then true
  else if pyFindChar (pyLower val) 'f' || pyFindChar (pyLower val) 'n'
      || pyFindChar (pyLower val) '0' then false
  else default

/-- Model of cp_getBoolean (gip_common.py line 601).  When the option is
absent, cp_get returns the boolean default, whose Python str form then
takes the same character scan. -/
def cp_getBoolean (cp : Config) (sec opt : String) (default : Bool) : Bool :=
  boolFromVal
    (match cp_getStrOpt cp sec opt with
     | some v => v
     | none => pyStrBool default)
    default

/-- Model of cp_getInt (gip_common.py line 625): the value (or the str
form of the default) is stripped and parsed as an int; any parse failure
yields the default. -/
def cp_getInt (cp : Config) (sec opt : String) (default : Int) : Int :=
  let raw :=
    match cp_getStrOpt cp sec opt with
    | some v => v
    | none => pyStrOfInt default
  match pyParseInt (pyStripL raw.data) with
  | some n => n
  | none => default

/-- Model of cp_getList (gip_common.py line 643): a stored string is
split by split_re; an absent option returns the (list) default as-is. -/
def cp_getList (cp : Config) (sec opt : String) (default : List String) : List String :=
  match cp_getStrOpt cp sec opt with
  | some v => pySplitWS v
  | none => default

/-! ## FQAN normalisation and matching (gip_common.py lines 704-750) -/

/-- The first two conditional strips of normalizeFQAN: an optional
leading VOMS: prefix removal, then an optional leading VO: removal. -/
def stripFQANPre (fqan : String) : String :=
  let f1 := if pyStartswithStr fqan "VOMS:" then pyDrop fqan 5 else fqan
  if pyStartswithStr f1 "VO:" then pyDrop f1 3 else f1

/-- The third conditional of normalizeFQAN: a leading slash is added
when missing. -/
def ensureSlash (s : String) : String :=
  if pyStartswithStr s "/" then s else "/" ++ s

/-- Model of normalizeFQAN (gip_common.py line 704). -/
def normalizeFQAN (fqan : String) : String :=
  let f3 := ensureSlash (stripFQANPre fqan)
  if containsSubS f3 "Role=" then f3 else f3 ++ "/Role=*"

/-- Model of matchFQAN (gip_common.py line 721).  The two-way unpacking
of the split raises a ValueError when the split does not have exactly
two parts; none models that exception. -/
def matchFQAN (fqan1 fqan2 : String) : Option Bool :=
  let f1 := normalizeFQAN fqan1
  let f2 := normalizeFQAN fqan2
  match pySplitS f1 "/Role=", pySplitS f2 "/Role=" with
  | [vog1, vor1], [vog2, vor2] =>
    let vor_matches := vor2 == "*" || vor2 == vor1
    let vog_matches := pyStartswithStr vog1 vog2
    some (vog_matches && vor_matches)
  | _, _ => none

/-! ## CE, SE and bind lists (gip_cese_bind.py)

The batch-system query modules (pbs_common, lsf_common, condor_common,
slurm_common, sge_common), gip_storage.getPath and the
condor_ce_config_val subprocess behind getHTCondorCEPort are external to
the two source files; their results enter the model through BatchEnv. -/

/-- Modelled from the spec: the external inputs of gip_cese_bind — the
per-batch-system queue-name lists returned by the five query modules,
the dynamically resolved HTCondor-CE port, and the storage access point
returned by gip_storage.getPath (none when it returns nothing). -/
structure BatchEnv where
  pbsQueues : List String
  lsfQueues : List String
  condorQueues : List String
  slurmQueues : List String
  sgeQueues : List String
  htcondorCEPort : Int
  storagePath : Option String
deriving DecidableEq

/-- Modelled from the spec: the section-name constant ce of the
gip_sections module (not under src). -/
def ceSec : String := "ce"

/-- Modelled from the spec: the section-name constant cesebind of the
gip_sections module (not under src). -/
def cesebindSec : String := "cesebind"

/-- Modelled from the spec: the section-name constant se of the
gip_sections module (not under src). -/
def seSec : String := "se"

/-- The port and prefix selection of getCEList (gip_cese_bind.py lines
32-39): jobmanager/2119 by default, cream/8443 when cream is enabled,
htcondorce with the resolved port when htcondorce is enabled. -/
def cePortPrefix (env : BatchEnv) (cp : Config) : Int × String :=
  let pp := ((2119 : Int), "jobmanager")
  let pp := if cp_getBoolean cp "cream" "enabled" false then ((8443 : Int), "cream") else pp
  if cp_getBoolean cp "htcondorce" "enabled" false then (env.htcondorCEPort, "htcondorce") else pp

/-- The queue-list dispatch of getCEList (gip_cese_bind.py lines 43-60):
none models the final ValueError branch for an unknown job manager. -/
def lookupQueues (env : BatchEnv) (jobman : String) : Option (List String) :=
  if jobman = "pbs" then some env.pbsQueues
  else if jobman = "lsf" then some env.lsfQueues
  else if jobman = "condor" then some env.condorQueues
  else if jobman = "slurm" then some env.slurmQueues
  else if jobman = "sge" then some env.sgeQueues
  else none

/-- The CE identifier built from one hostname and one queue: the string
template percent-formatting collapses to concatenation. -/
def mkCEName (hostname : String) (port : Int) (pfx jobman queue : String) : String :=
  hostname ++ ":" ++ pyStrOfInt port ++ "/" ++ pfx ++ "-" ++ jobman ++ "-" ++ queue

/-- Model of getCEList (gip_cese_bind.py line 18).  The two raw config
reads happen first (raising on a missing key), then the hostname
templates are built, then the dispatch on the job manager either yields
the queue list or raises ValueError; finally the queue-outer,
hostname-inner nested loops emit one identifier per pair. -/
def getCEList (env : BatchEnv) (cp : Config) (extraCEs : List String) :
    Except GipErr (List String) := do
  let jm0 ← cpRawGetE cp ceSec "job_manager"
  let jobman := pyLower (pyStrip jm0)
  let nm ← cpRawGetE cp ceSec "name"
  let hostnames := [nm] ++ extraCEs
  let pp := cePortPrefix env cp
  let ce_names := hostnames.map (fun h => fun q => mkCEName h pp.1 pp.2 jobman q)
  match lookupQueues env jobman with
  | none => Except.error (GipErr.valueError ("Unknown job manager " ++ jobman ++ "."))
  | some queue_entries =>
    Except.ok (queue_entries.flatMap (fun q => ce_names.map (fun t => t q)))

/-- Model of getClassicSEList (gip_cese_bind.py line 66). -/
def getClassicSEList (cp : Config) : List String :=
  if cp_getBoolean cp "classic_se" "advertise_se" true then
    let classicSE := cp_getStrOpt cp "classic_se" "unique_name"
    if pyTruthy classicSE then [classicSE.getD ""]
    else
      let siteUniqueID := cp_get cp "site" "unique_name" "UNKNOWN"
      [siteUniqueID ++ "_classicSE"]
  else []

/-- The section filter of the simple-mode scan (gip_cese_bind.py lines
102-105 and 129-132): the lowercased name must start with se and must
not be the literal se. -/
def seSectionKeep (sect : String) : Bool :=
  pyStartswithStr (pyLower sect) "se" && pyLower sect ≠ "se"

/-- Model of getSEList (gip_cese_bind.py line 86), with an explicit fuel
parameter because the except-branch of the explicit mode calls getSEList
again with unchanged arguments; running out of fuel models the Python
recursion limit being hit. -/
def getSEListF : Nat → Config → Bool → Except GipErr (List String)
  | 0, _, _ => Except.error GipErr.recursionLimit
  | Nat.succ fuel, cp, classicSEs => do
    let simple ← cpRawGetbooleanE cp cesebindSec "simple"
    let se_list ←
      if simple then
        let base :=
          if cp_getBoolean cp seSec "advertise_se" true then
            match cpRawGet cp seSec "unique_name" with
            | some u => [u]
            | none => []
          else []
        let scanned := ((sectionNames cp).filter
            (fun sect => seSectionKeep sect && cp_getBoolean cp sect "advertise_se" true)).filterMap
            (fun sect => cpRawGet cp sect "unique_name")
        pure (base ++ scanned)
      else
        match cpRawGet cp cesebindSec "se_list" with
        | some v => pure (pySplitWS v)
        | none => getSEListF fuel cp classicSEs
    let se_list := if classicSEs then se_list ++ getClassicSEList cp else se_list
    pure se_list.dedup

/-- Model of getSESections (gip_cese_bind.py line 121): the
(unique name, section) pairs in scan order; a later pair for the same
unique name overrides an earlier one, as in a Python dict. -/
def getSESections (cp : Config) : List (String × String) :=
  ((sectionNames cp).filter
      (fun sect => seSectionKeep sect && cp_getBoolean cp sect "advertise_se" true)).filterMap
    (fun sect => (cpRawGet cp sect "unique_name").map (fun u => (u, sect)))

/-- Lookup in an association list built in insertion order with
last-write-wins dict semantics. -/
def dictFind (m : List (String × String)) (k : String) : Option String :=
  (m.reverse.find? (fun p => p.1 == k)).map (fun p => p.2)

/-- The default access point of getCESEBindInfo (gip_cese_bind.py lines
160-162): the getPath result, replaced by a slash when falsy. -/
def defaultAccessPoint (env : BatchEnv) : String :=
  match env.storagePath with
  | some p => if p = "" then "/" else p
  | none => "/"

/-- One CESE bind record. -/
structure BindRecord where
  ceUniqueID : String
  seUniqueID : String
  access_point : String
  mount_point : String
deriving DecidableEq

/-- Model of getCESEBindInfo (gip_cese_bind.py line 141). -/
def getCESEBindInfo (fuel : Nat) (env : BatchEnv) (cp : Config) :
    Except GipErr (List BindRecord) := do
  let ce_list ← getCEList env cp []
  let se_list0 ← getSEListF fuel cp false
  let classicse_list := getClassicSEList cp
  let se_list := se_list0 ++ classicse_list
  let section_map := getSESections cp
  let access_point := defaultAccessPoint env
  let classic_access_point := cp_get cp "osg_dirs" "data" "/"
  pure (se_list.flatMap (fun myse =>
    let mount_point :=
      match dictFind section_map myse with
      | some sect => cp_getStrOpt cp sect "mount_point"
      | none => none
    ce_list.map (fun myce =>
      { ceUniqueID := myce
        seUniqueID := myse
        access_point :=
          if myse ∈ classicse_list then classic_access_point else access_point
        mount_point :=
          if pyTruthy mount_point then
            "\nGlueCESEBindMountInfo: " ++ mount_point.getD ""
          else "" })))

/-! ## Response-time estimation (gip_common.py lines 872-925)

The two divisions are Python float divisions; they are modelled as exact
rational division followed by truncation toward zero (the behaviour of
the int function on a float).  A zero divisor is modelled as a raised
ZeroDivisionError. -/

theorem digitChar_toNat (d : Nat) (h : d < 10) : (digitChar d).toNat = 48 + d := by
  interval_cases d <;> rfl

theorem digitVal_digitChar (d : Nat) (h : d < 10) : digitVal (digitChar d) = some d := by
  interval_cases d <;> rfl


theorem parseDigitsAux_append (acc : Nat) (l1 l2 : List Char) :
    parseDigitsAux acc (l1 ++ l2) =
      match parseDigitsAux acc l1 with
      | some v => parseDigitsAux v l2
      | none => none := by
  induction l1 generalizing acc with
  | nil => rfl
  | cons c cs ih =>
    simp only [List.cons_append, parseDigitsAux]
    cases digitVal c with
    | none => rfl
    | some d => exact ih _

theorem natDigitsAux_spec : ∀ fuel n, n < fuel →
    natDigitsAux fuel n ≠ [] ∧
    (∀ c ∈ natDigitsAux fuel n, 48 ≤ c.toNat ∧ c.toNat ≤ 57) ∧
    ∀ acc, parseDigitsAux acc (natDigitsAux fuel n) =
      some (acc * 10 ^ (natDigitsAux fuel n).length + n) := by
  intro fuel
  induction fuel with
  | zero =>
    intro n h
    omega
  | succ fuel ih =>
    intro n hn
    by_cases h : n < 10
    · simp only [natDigitsAux, if_pos h]
      refine ⟨by simp, ?_, ?_⟩
      · intro c hc
        simp only [List.mem_singleton] at hc
        subst hc
        rw [digitChar_toNat n h]
        omega
      · intro acc
        simp only [parseDigitsAux, digitVal_digitChar n h, List.length_singleton, pow_one]
    · have hrec : n / 10 < fuel := by omega
      obtain ⟨ihne, ihdig, ihparse⟩ := ih (n / 10) hrec
      simp only [natDigitsAux, if_neg h]
      refine ⟨by simp, ?_, ?_⟩
      · intro c hc
        rw [List.mem_append, List.mem_singleton] at hc
        rcases hc with hc | hc
        · exact ihdig c hc
        · subst hc
          rw [digitChar_toNat _ (Nat.mod_lt _ (by omega))]
          omega
      · intro acc
        rw [parseDigitsAux_append, ihparse acc]
        simp only [parseDigitsAux, digitVal_digitChar _ (Nat.mod_lt _ (by omega)),
          List.length_append, List.length_singleton]
        congr 1
        rw [pow_succ, ← Nat.mul_assoc]
        omega

theorem natDigits_ne_nil (n : Nat) : natDigits n ≠ [] :=
  (natDigitsAux_spec (n + 1) n (by omega)).1

theorem natDigits_digits (n : Nat) : ∀ c ∈ natDigits n, 48 ≤ c.toNat ∧ c.toNat ≤ 57 :=
  (natDigitsAux_spec (n + 1) n (by omega)).2.1

theorem pyParseNat_natDigits (n : Nat) : pyParseNat (natDigits n) = some n := by
  obtain ⟨hne, _, hp⟩ := natDigitsAux_spec (n + 1) n (by omega)
  show pyParseNat (natDigitsAux (n + 1) n) = some n
  unfold pyParseNat
  split
  · rename_i hd
    exact absurd hd hne
  · rw [hp 0]
    simp

theorem dropWhile_eq_self_of_forall {p : Char → Bool} (l : List Char)
    (h : ∀ c ∈ l, p c = false) : l.dropWhile p = l := by
  cases l with
  | nil => rfl
  | cons c cs => simp [List.dropWhile_cons, h c (List.mem_cons_self c cs)]

theorem pyStripL_eq_self (l : List Char) (h : ∀ c ∈ l, c.isWhitespace = false) :
    pyStripL l = l := by
  unfold pyStripL
  rw [dropWhile_eq_self_of_forall l h]
  rw [dropWhile_eq_self_of_forall l.reverse (fun c hc => h c (List.mem_reverse.mp hc))]
  exact List.reverse_reverse l

theorem digit_not_ws (c : Char) (h : 48 ≤ c.toNat ∧ c.toNat ≤ 57) :
    c.isWhitespace = false := by
  by_contra hw
  rw [Bool.not_eq_false] at hw
  simp only [Char.isWhitespace, Bool.or_eq_true, decide_eq_true_eq] at hw
  rcases hw with ((h1 | h1) | h1) | h1 <;> subst h1 <;> exact absurd h (by decide)

theorem intDigits_not_ws (i : Int) : ∀ c ∈ intDigits i, c.isWhitespace = false := by
  intro c hc
  unfold intDigits at hc
  by_cases h : i < 0
  · rw [if_pos h, List.mem_cons] at hc
    rcases hc with hc | hc
    · subst hc; rfl
    · exact digit_not_ws c (natDigits_digits _ c hc)
  · rw [if_neg h] at hc
    exact digit_not_ws c (natDigits_digits _ c hc)

theorem pyParseInt_intDigits (i : Int) : pyParseInt (intDigits i) = some i := by
  unfold intDigits
  by_cases h : i < 0
  · rw [if_pos h]
    have hstep : pyParseInt ('-' :: natDigits i.natAbs) =
        (pyParseNat (natDigits i.natAbs)).map (fun n => -(Int.ofNat n)) := by
      simp [pyParseInt]
    rw [hstep, pyParseNat_natDigits, Option.map_some']
    congr 1
    show -((i.natAbs : Int)) = i
    omega
  · rw [if_neg h]
    cases hd : natDigits i.natAbs with
    | nil => exact absurd hd (natDigits_ne_nil _)
    | cons c cs =>
      have hcd : 48 ≤ c.toNat ∧ c.toNat ≤ 57 :=
        natDigits_digits _ c (hd ▸ List.mem_cons_self c cs)
      have hc1 : ¬(c = '-') := by
        intro he; subst he; exact absurd hcd (by decide)
      have hc2 : ¬(c = '+') := by
        intro he; subst he; exact absurd hcd (by decide)
      simp only [pyParseInt, if_neg hc1, if_neg hc2]
      rw [← hd, pyParseNat_natDigits]
      simp only [Option.map_some']
      congr 1
      show ((i.natAbs : Int)) = i
      omega

theorem pyParseInt_strip_pyStrOfInt (i : Int) :
    pyParseInt (pyStripL (pyStrOfInt i).data) = some i := by
  have hstrip : pyStripL (intDigits i) = intDigits i :=
    pyStripL_eq_self _ (intDigits_not_ws i)
  show pyParseInt (pyStripL (intDigits i)) = some i
  rw [hstrip]
  exact pyParseInt_intDigits i

/-! ## Generic helper lemmas -/

theorem gbind_ok {α β : Type} (a : α) (f : α → Except GipErr β) :
    (bind (Except.ok a) f : Except GipErr β) = f a := rfl

theorem data_append (a b : String) : (a ++ b).data = a.data ++ b.data := by
  cases a
  cases b
  rfl

theorem boolFromVal_strBool (d : Bool) : boolFromVal (pyStrBool d) d = d := by
  cases d <;> rfl

theorem length_flatMap_const {α β γ : Type} (l : List α) (m : List β) (f : α → β → γ) :
    (l.flatMap (fun x => m.map (f x))).length = l.length * m.length := by
  induction l with
  | nil => simp
  | cons x t ih =>
    simp only [List.flatMap_cons, List.length_append, List.length_map, ih, List.length_cons]
    rw [Nat.succ_mul]
    omega

/-! ## Claim C5 -/

/-- Claim C5: for every configuration object and every (section, option)
pair absent from it, each defaulted accessor (cp_get, cp_getBoolean,
cp_getInt, cp_getList) returns exactly the supplied default; cp_get is a
total function of the model, so a missing section or option never
raises. -/
theorem claim_c5_absent_defaults (cp : Config) (sec opt : String)
    (h : cpRawGet cp sec opt = none)
    (ds : String) (db : Bool) (di : Int) (dl : List String) :
    cp_get cp sec opt ds = ds ∧ cp_getBoolean cp sec opt db = db ∧
      cp_getInt cp sec opt di = di ∧ cp_getList cp sec opt dl = dl := by
  have hopt : cp_getStrOpt cp sec opt = none := by
    unfold cp_getStrOpt
    split
    · rfl
    · exact h
  refine ⟨?_, ?_, ?_, ?_⟩
  · simp only [cp_get, hopt]
  · simp only [cp_getBoolean, hopt]
    exact boolFromVal_strBool db
  · simp only [cp_getInt, hopt]
    rw [pyParseInt_strip_pyStrOfInt]
  · simp only [cp_getList, hopt]

/-- Witness for C5: the empty configuration at a concrete key and
concrete defaults of all four types. -/
theorem claim_c5_witness :
    cp_get (Config.mk []) "site" "name" "dflt" = "dflt" ∧
      cp_getBoolean (Config.mk []) "site" "name" false = false ∧
      cp_getInt (Config.mk []) "site" "name" (-37) = -37 ∧
      cp_getList (Config.mk []) "site" "name" ["x", "y"] = ["x", "y"] :=
  claim_c5_absent_defaults (Config.mk []) "site" "name" rfl "dflt" false (-37) ["x", "y"]

/-! ## Claim C4 -/

/-- Claim C4: cp_getBoolean is case-insensitive and substring-based —
a stored value containing t, y or 1 yields true, a value containing
f, n or 0 (and none of the former) yields false, an ambiguous value
or an absent option yields the supplied default. -/
theorem claim_c4_getBoolean_substring (cp : Config) (sec opt : String) (d : Bool) :
    (∀ v, cp_getStrOpt cp sec opt = some v →
      cp_getBoolean cp sec opt d = boolFromVal v d) ∧
    (∀ v w : String, pyLower v = pyLower w → boolFromVal v d = boolFromVal w d) ∧
    (∀ v : String,
      (pyFindChar (pyLower v) 't' || pyFindChar (pyLower v) 'y'
        || pyFindChar (pyLower v) '1') = true →
      boolFromVal v d = true) ∧
    (∀ v : String,
      (pyFindChar (pyLower v) 't' || pyFindChar (pyLower v) 'y'
        || pyFindChar (pyLower v) '1') = false →
      (pyFindChar (pyLower v) 'f' || pyFindChar (pyLower v) 'n'
        || pyFindChar (pyLower v) '0') = true →
      boolFromVal v d = false) ∧
    (∀ v : String,
      (pyFindChar (pyLower v) 't' || pyFindChar (pyLower v) 'y'
        || pyFindChar (pyLower v) '1') = false →
      (pyFindChar (pyLower v) 'f' || pyFindChar (pyLower v) 'n'
        || pyFindChar (pyLower v) '0') = false →
      boolFromVal v d = d) ∧
    (cp_getStrOpt cp sec opt = none → cp_getBoolean cp sec opt d = d) ∧
    (boolFromVal "True" d = true ∧ boolFromVal "yes" d = true ∧
      boolFromVal "1" d = true ∧ boolFromVal "False" d = false ∧
      boolFromVal "no" d = false ∧ boolFromVal "0" d = false) := by
  refine ⟨?_, ?_, ?_, ?_, ?_, ?_, ?_⟩
  · intro v hv
    simp only [cp_getBoolean, hv]
  · intro v w hvw
    simp only [boolFromVal, hvw]
  · intro v ht
    simp [boolFromVal, ht]
  · intro v ht hf
    simp [boolFromVal, ht, hf]
  · intro v ht hf
    simp [boolFromVal, ht, hf]
  · intro h
    simp only [cp_getBoolean, h]
    exact boolFromVal_strBool d
  · cases d <;> exact ⟨rfl, rfl, rfl, rfl, rfl, rfl⟩

/-! ## Claim C10 -/

/-- A configuration with the cesebind simple flag false and no se_list
option: the explicit-mode read fails on every attempt. -/
def cpRecursing : Config := Config.mk [ConfigSection.mk "cesebind" [("simple", "no")]]

/-- Claim C2 (the code as written): with simple = false and the se_list
read failing, the except branch of getSEList re-enters getSEList with
unchanged arguments, so no amount of fuel ever produces a list — the
Python code recurses until the interpreter recursion limit raises,
instead of falling back to the simple-mode scan. -/
theorem claim_c2_selist_fallback_diverges (fuel : Nat) :
    getSEListF fuel cpRecursing true = Except.error GipErr.recursionLimit := by
  induction fuel with
  | zero => rfl
  | succ n ih =>
    have hstep : getSEListF (n + 1) cpRecursing true =
        bind (getSEListF n cpRecursing true)
          (fun sl => pure (sl ++ getClassicSEList cpRecursing).dedup) := rfl
    rw [hstep, ih]
    rfl

/-- Witness for C2 at a concrete fuel value. -/
theorem claim_c2_witness :
    getSEListF 25 cpRecursing true = Except.error GipErr.recursionLimit :=
  claim_c2_selist_fallback_diverges 25

/-! ## Lemmas for the FQAN claims -/

theorem containsSub_append_right (a b sub : List Char) (h : containsSub b sub = true) :
    containsSub (a ++ b) sub = true := by
  induction a with
  | nil => simpa using h
  | cons c t ih =>
    show (sub.isPrefixOf (c :: (t ++ b)) ||
      match c :: (t ++ b) with
      | [] => false
      | _ :: t2 => containsSub t2 sub) = true
    simp only [ih, Bool.or_true]

theorem pyStartswith_append (a b p : String) (h : pyStartswithStr a p = true) :
    pyStartswithStr (a ++ b) p = true := by
  unfold pyStartswithStr at h ⊢
  rw [data_append]
  rw [ List.isPrefixOf_iff_prefix] at h ⊢
  exact h.trans (List.prefix_append _ _)

theorem ensureSlash_startswith (s : String) : pyStartswithStr (ensureSlash s) "/" = true := by
  unfold ensureSlash
  by_cases h : pyStartswithStr s "/" = true
  · rw [if_pos h]
    exact h
  · rw [if_neg h]
    show pyStartswithStr (String.mk ('/' :: s.data)) "/" = true
    simp [pyStartswithStr, List.isPrefixOf]

theorem normalizeFQAN_startswith (s : String) :
    pyStartswithStr (normalizeFQAN s) "/" = true := by
  unfold normalizeFQAN
  by_cases h : containsSubS (ensureSlash (stripFQANPre s)) "Role=" = true
  · rw [if_pos h]
    exact ensureSlash_startswith _
  · rw [if_neg h]
    exact pyStartswith_append _ _ _ (ensureSlash_startswith _)

theorem normalizeFQAN_contains_role (s : String) :
    containsSubS (normalizeFQAN s) "Role=" = true := by
  unfold normalizeFQAN
  by_cases h : containsSubS (ensureSlash (stripFQANPre s)) "Role=" = true
  · rw [if_pos h]
    exact h
  · rw [if_neg h]
    unfold containsSubS
    rw [data_append]
    exact containsSub_append_right _ _ _ (by decide)

/-! ## Claim C8 -/

/-- Claim C8: normalizeFQAN strips an optional VOMS: or VO: prefix,
always yields a string starting with a slash, appends /Role=* exactly
when the prefix-stripped, slash-ensured string has no Role= substring
(so the result always contains Role=), and maps the two documented
examples to their documented outputs. -/
theorem claim_c8_normalizeFQAN :
    normalizeFQAN "VOMS:/cms" = "/cms/Role=*" ∧
    normalizeFQAN "VO:cms/Role=production" = "/cms/Role=production" ∧
    (∀ s, pyStartswithStr (normalizeFQAN s) "/" = true) ∧
    (∀ s, containsSubS (normalizeFQAN s) "Role=" = true) ∧
    (∀ s, containsSubS (ensureSlash (stripFQANPre s)) "Role=" = false →
      normalizeFQAN s = ensureSlash (stripFQANPre s) ++ "/Role=*") ∧
    (∀ s, containsSubS (ensureSlash (stripFQANPre s)) "Role=" = true →
      normalizeFQAN s = ensureSlash (stripFQANPre s)) := by
  refine ⟨rfl, rfl, normalizeFQAN_startswith, normalizeFQAN_contains_role, ?_, ?_⟩
  · intro s h
    unfold normalizeFQAN
    rw [if_neg (by rw [h]; exact Bool.false_ne_true)]
  · intro s h
    unfold normalizeFQAN
    rw [if_pos h]

/-! ## Claim C7 -/

/-- Claim C7: when the normalised forms of both arguments split into
exactly one (group, role) pair each, matchFQAN returns a boolean that is
true exactly when the role of the second argument is the literal star
or equals the role of the first, and the group of the first starts with
the group of the second; the two documented examples evaluate as
documented. -/
theorem claim_c7_matchFQAN (a b ga ra gb rb : String)
    (ha : pySplitS (normalizeFQAN a) "/Role=" = [ga, ra])
    (hb : pySplitS (normalizeFQAN b) "/Role=" = [gb, rb]) :
    (matchFQAN a b = some true ↔
      ((rb = "*" ∨ rb = ra) ∧ pyStartswithStr ga gb = true)) ∧
    matchFQAN "/cms/production/Role=pilot" "/cms/Role=*" = some true ∧
    matchFQAN "/cms/Role=pilot" "/cms/Role=production" = some false := by
  refine ⟨?_, rfl, rfl⟩
  simp only [matchFQAN, ha, hb]
  simp only [Option.some.injEq, Bool.and_eq_true, Bool.or_eq_true, beq_iff_eq]
  constructor
  · rintro ⟨hg, hr⟩
    exact ⟨hr, hg⟩
  · rintro ⟨hr, hg⟩
    exact ⟨hg, hr⟩

/-- Witness for C7 at the first documented example. -/
theorem claim_c7_witness :
    ((matchFQAN "/cms/production/Role=pilot" "/cms/Role=*" = some true ↔
      (("*" = "*" ∨ "*" = "pilot") ∧
        pyStartswithStr "/cms/production" "/cms" = true)) ∧
      matchFQAN "/cms/production/Role=pilot" "/cms/Role=*" = some true ∧
      matchFQAN "/cms/Role=pilot" "/cms/Role=production" = some false) :=
  claim_c7_matchFQAN "/cms/production/Role=pilot" "/cms/Role=*"
    "/cms/production" "pilot" "/cms" "*" rfl rfl

/-! ## Claim C9 -/

theorem pySplitAuxF_length (sep : List Char) :
    ∀ fuel cur s, s.length < fuel →
      (pySplitAuxF sep fuel cur s).length = countSub sep s + 1 := by
  intro fuel
  induction fuel with
  | zero =>
    intro cur s h
    omega
  | succ fuel ih =>
    intro cur s hs
    cases s with
    | nil => simp [pySplitAuxF, countSub]
    | cons c rest =>
      simp only [List.length_cons] at hs
      by_cases h : sep.isPrefixOf (c :: rest) = true
      · simp only [pySplitAuxF, countSub, if_pos h, List.length_cons]
        rw [ih [] (rest.drop (sep.length - 1))
          (by simp only [List.length_drop]; omega)]
      · simp only [pySplitAuxF, countSub, if_neg h]
        exact ih (c :: cur) rest (by omega)

theorem pySplitS_length (s sep : String) :
    (pySplitS s sep).length = countSub sep.data s.data + 1 := by
  unfold pySplitS
  rw [List.length_map]
  exact pySplitAuxF_length sep.data (s.data.length + 1) [] s.data (by omega)

/-- Claim C9: matchFQAN returns a boolean (rather than raising from the
two-way unpacking) exactly when each normalised argument contains
exactly one occurrence of the substring /Role= — that is, when its
split has exactly two parts; the string /cms/subRole=x (whose Role=
substring is not preceded by a slash) and a string with two /Role=
occurrences both make matchFQAN raise. -/
theorem claim_c9_matchFQAN_totality (a b : String) :
    ((matchFQAN a b).isSome = true ↔
      (countSub "/Role=".data (normalizeFQAN a).data = 1 ∧
        countSub "/Role=".data (normalizeFQAN b).data = 1)) ∧
    matchFQAN "/cms/subRole=x" "/cms" = none ∧
    matchFQAN "/a/Role=x/Role=y" "/b" = none := by
  refine ⟨?_, rfl, rfl⟩
  have hA := pySplitS_length (normalizeFQAN a) "/Role="
  have hB := pySplitS_length (normalizeFQAN b) "/Role="
  simp only [matchFQAN]
  rcases hla : pySplitS (normalizeFQAN a) "/Role=" with _ | ⟨g1, _ | ⟨r1, _ | ⟨x1, t1⟩⟩⟩ <;>
    rcases hlb : pySplitS (normalizeFQAN b) "/Role=" with _ | ⟨g2, _ | ⟨r2, _ | ⟨x2, t2⟩⟩⟩ <;>
      rw [hla] at hA <;> rw [hlb] at hB <;>
      simp only [List.length_nil, List.length_cons] at hA hB <;>
      simp only [Option.isSome_some, Option.isSome_none] <;>
      constructor <;> intro hcon <;>
      first
        | trivial
        | exact absurd hcon Bool.false_ne_true
        | exact ⟨by omega, by omega⟩
        | (exfalso; omega)

/-! ## Lemmas for the CE-list claims -/

theorem cpRawGetE_of_raw (cp : Config) (s o v : String)
    (h : cpRawGet cp s o = some v) : cpRawGetE cp s o = Except.ok v := by
  unfold cpRawGet at h
  unfold cpRawGetE
  cases hf : findSection cp s with
  | none =>
    rw [hf] at h
    exact absurd h (by simp)
  | some sec =>
    rw [hf] at h
    simp only [Option.some_bind] at h
    simp only [h]

theorem lookupQueues_none (env : BatchEnv) (jm : String)
    (h : jm ∉ (["pbs", "lsf", "condor", "slurm", "sge"] : List String)) :
    lookupQueues env jm = none := by
  simp only [List.mem_cons, List.mem_singleton, not_or] at h
  obtain ⟨h1, h2, h3, h4, h5, -⟩ := h
  unfold lookupQueues
  rw [if_neg h1, if_neg h2, if_neg h3, if_neg h4, if_neg h5]

/-! ## Claim C3 -/

/-- Amended claim C3: for every configuration that stores a ce
job_manager value and a ce name value, when the trimmed, lowercased
job-manager name is none of the five recognised batch systems,
getCEList raises the Unknown-job-manager ValueError at the dispatch,
producing no CE list. -/
theorem claim_c3_unknown_jobmanager (env : BatchEnv) (cp : Config)
    (extras : List String) (jm0 nm : String)
    (hjm : cpRawGet cp ceSec "job_manager" = some jm0)
    (hnm : cpRawGet cp ceSec "name" = some nm)
    (hun : pyLower (pyStrip jm0) ∉ (["pbs", "lsf", "condor", "slurm", "sge"] : List String)) :
    getCEList env cp extras =
      Except.error (GipErr.valueError
        ("Unknown job manager " ++ pyLower (pyStrip jm0) ++ ".")) := by
  unfold getCEList
  rw [cpRawGetE_of_raw cp ceSec "job_manager" jm0 hjm]
  rw [gbind_ok]
  rw [cpRawGetE_of_raw cp ceSec "name" nm hnm]
  rw [gbind_ok]
  rw [lookupQueues_none env _ hun]

/-- Witness for the amended C3 at a concrete bogus configuration. -/
theorem claim_c3_witness :
    getCEList (BatchEnv.mk [] [] [] [] [] 9619 none)
      (Config.mk [ConfigSection.mk "ce" [("job_manager", "bogus"), ("name", "h")]]) [] =
      Except.error (GipErr.valueError
        ("Unknown job manager " ++ pyLower (pyStrip "bogus") ++ ".")) :=
  claim_c3_unknown_jobmanager (BatchEnv.mk [] [] [] [] [] 9619 none)
    (Config.mk [ConfigSection.mk "ce" [("job_manager", "bogus"), ("name", "h")]])
    [] "bogus" "h" rfl rfl (by decide)

/-- Counterexample to C3 as stated: a configuration whose ce
job_manager is the unrecognised value bogus but whose ce section has no
name option makes getCEList raise the missing-option error of the raw
name read (gip_cese_bind.py line 29), not the ValueError the claim
promises for every such configuration. -/
theorem claim_c3_counterexample :
    getCEList (BatchEnv.mk [] [] [] [] [] 9619 none)
      (Config.mk [ConfigSection.mk "ce" [("job_manager", "bogus")]]) [] =
      Except.error (GipErr.noOption "ce" "name") ∧
    pyLower (pyStrip "bogus") ∉ (["pbs", "lsf", "condor", "slurm", "sge"] : List String) :=
  ⟨rfl, by decide⟩

/-! ## Claim C6 -/

/-- Claim C6: with a stored job-manager and hostname and a recognised
(trimmed, lowercased) job manager, getCEList returns exactly the
queue-major cross product — for each queue of the batch-system query,
for each hostname (the configured name first, then the extra CEs) — of
identifiers hostname:port/prefix-jobmanager-queue, one per
(hostname, queue) pair. -/
theorem claim_c6_getCEList_cross (env : BatchEnv) (cp : Config)
    (extras : List String) (jm0 nm : String) (qs : List String)
    (hjm : cpRawGet cp ceSec "job_manager" = some jm0)
    (hnm : cpRawGet cp ceSec "name" = some nm)
    (hq : lookupQueues env (pyLower (pyStrip jm0)) = some qs) :
    getCEList env cp extras = Except.ok (qs.flatMap (fun q =>
      (nm :: extras).map (fun h =>
        mkCEName h (cePortPrefix env cp).1 (cePortPrefix env cp).2
          (pyLower (pyStrip jm0)) q))) ∧
    (qs.flatMap (fun q =>
      (nm :: extras).map (fun h =>
        mkCEName h (cePortPrefix env cp).1 (cePortPrefix env cp).2
          (pyLower (pyStrip jm0)) q))).length = qs.length * (1 + extras.length) := by
  constructor
  · unfold getCEList
    rw [cpRawGetE_of_raw cp ceSec "job_manager" jm0 hjm]
    rw [gbind_ok]
    rw [cpRawGetE_of_raw cp ceSec "name" nm hnm]
    rw [gbind_ok]
    rw [hq]
    simp only [List.map_map, List.singleton_append]
    rfl
  · rw [length_flatMap_const, List.length_cons]
    ring

/-- Witness for C6 at a concrete condor configuration with one extra
CE hostname. -/
theorem claim_c6_witness :
    getCEList (BatchEnv.mk [] [] ["default", "prio"] [] [] 9619 none)
      (Config.mk [ConfigSection.mk "ce" [("job_manager", "Condor"), ("name", "a.example")]])
      ["b.example"] = Except.ok
        ["a.example:2119/jobmanager-condor-default",
         "b.example:2119/jobmanager-condor-default",
         "a.example:2119/jobmanager-condor-prio",
         "b.example:2119/jobmanager-condor-prio"] ∧
    (4 : Nat) = 2 * (1 + 1) := by
  have h := claim_c6_getCEList_cross
    (BatchEnv.mk [] [] ["default", "prio"] [] [] 9619 none)
    (Config.mk [ConfigSection.mk "ce" [("job_manager", "Condor"), ("name", "a.example")]])
    ["b.example"] "Condor" "a.example" ["default", "prio"] rfl rfl rfl
  exact ⟨h.1.trans (by rfl), by omega⟩

/-! ## Claim C1 -/

/-- Amended claim C1: when getCESEBindInfo succeeds, it emits exactly
|non-classic SE list| + |classic SE list| times |CE list| records; each
record carries the classic access point (osg_dirs data, default slash)
exactly when its seUniqueID is in the classic SE list and the default
access point otherwise, and carries the newline-prefixed
GlueCESEBindMountInfo attribute line exactly when the originating SE
section declares a non-empty mount_point (an empty declared value is
falsy in Python and yields the empty string). -/
theorem claim_c1_cese_bind (fuel : Nat) (env : BatchEnv) (cp : Config)
    (ce_list se_nc : List String) (binds : List BindRecord)
    (hce : getCEList env cp [] = Except.ok ce_list)
    (hse : getSEListF fuel cp false = Except.ok se_nc)
    (hb : getCESEBindInfo fuel env cp = Except.ok binds) :
    binds.length = (se_nc.length + (getClassicSEList cp).length) * ce_list.length ∧
    ∀ r ∈ binds,
      r.access_point = (if r.seUniqueID ∈ getClassicSEList cp
        then cp_get cp "osg_dirs" "data" "/" else defaultAccessPoint env) ∧
      r.mount_point = (match
          (match dictFind (getSESections cp) r.seUniqueID with
           | some sect => cp_getStrOpt cp sect "mount_point"
           | none => none) with
        | some mp => if mp = "" then "" else "\nGlueCESEBindMountInfo: " ++ mp
        | none => "") := by
  unfold getCESEBindInfo at hb
  rw [hce] at hb
  rw [gbind_ok] at hb
  rw [hse] at hb
  rw [gbind_ok] at hb
  simp only [pure, Except.pure, Except.ok.injEq] at hb
  subst hb
  constructor
  · calc ((se_nc ++ getClassicSEList cp).flatMap _).length
        = (se_nc ++ getClassicSEList cp).length * ce_list.length :=
          length_flatMap_const _ _ _
      _ = (se_nc.length + (getClassicSEList cp).length) * ce_list.length := by
          rw [List.length_append]
  · intro r hr
    simp only [List.mem_flatMap, List.mem_map] at hr
    obtain ⟨myse, hmyse, myce, hmyce, heq⟩ := hr
    subst heq
    refine ⟨rfl, ?_⟩
    show (if pyTruthy (match dictFind (getSESections cp) myse with
            | some sect => cp_getStrOpt cp sect "mount_point"
            | none => none) then
          "\nGlueCESEBindMountInfo: " ++ (match dictFind (getSESections cp) myse with
            | some sect => cp_getStrOpt cp sect "mount_point"
            | none => none).getD ""
        else "") = _
    cases hd : dictFind (getSESections cp) myse with
    | none => rfl
    | some sect =>
      cases hmp : cp_getStrOpt cp sect "mount_point" with
      | none => simp [hmp, pyTruthy]
      | some mp =>
        by_cases hempty : mp = ""
        · subst hempty
          simp [hmp, pyTruthy]
        · simp [hmp, pyTruthy, hempty]

/-- A configuration whose SE section declares an empty mount_point
value together with its environment: the emitted record has an empty
mount_point field although the option is declared. -/
def cpMountEmpty : Config := Config.mk [
  ConfigSection.mk "ce" [("job_manager", "condor"), ("name", "h")],
  ConfigSection.mk "cesebind" [("simple", "yes")],
  ConfigSection.mk "se_x" [("unique_name", "SE1"), ("mount_point", "")]]

/-- Environment for the mount-point counterexample. -/
def envMountEmpty : BatchEnv := BatchEnv.mk [] [] ["q"] [] [] 9619 none

/-- Counterexample to C1 as stated: the section se_x of SE1 declares a
mount_point (with the empty value), yet the bind record of SE1 carries
the empty string, not a newline-prefixed GlueCESEBindMountInfo line,
because the Python truthiness test treats the empty string as absent. -/
theorem claim_c1_counterexample :
    cpRawGet cpMountEmpty "se_x" "mount_point" = some "" ∧
    dictFind (getSESections cpMountEmpty) "SE1" = some "se_x" ∧
    getCESEBindInfo 3 envMountEmpty cpMountEmpty = Except.ok
      [BindRecord.mk "h:2119/jobmanager-condor-q" "SE1" "/" "",
       BindRecord.mk "h:2119/jobmanager-condor-q" "UNKNOWN_classicSE" "/" ""] :=
  ⟨rfl, rfl, rfl⟩

/-- A concrete site configuration for the C1 witness. -/
def cpBindW : Config := Config.mk [
  ConfigSection.mk "ce" [("job_manager", "condor"), ("name", "red.example.com")],
  ConfigSection.mk "cesebind" [("simple", "True")],
  ConfigSection.mk "se_alpha" [("unique_name", "SE1"), ("mount_point", "/mnt")]]

/-- Environment for the C1 witness. -/
def envBindW : BatchEnv := BatchEnv.mk [] [] ["default"] [] [] 9619 (some "/storage")

/-- The bind records getCESEBindInfo produces for cpBindW. -/
def bindsW : List BindRecord :=
  [BindRecord.mk "red.example.com:2119/jobmanager-condor-default" "SE1" "/storage"
    "\nGlueCESEBindMountInfo: /mnt",
   BindRecord.mk "red.example.com:2119/jobmanager-condor-default" "UNKNOWN_classicSE" "/" ""]

/-- Witness for C1 at the concrete configuration cpBindW. -/
theorem claim_c1_witness :
    bindsW.length = ((["SE1"] : List String).length + (getClassicSEList cpBindW).length) *
      (["red.example.com:2119/jobmanager-condor-default"] : List String).length ∧
    ∀ r ∈ bindsW,
      r.access_point = (if r.seUniqueID ∈ getClassicSEList cpBindW
        then cp_get cpBindW "osg_dirs" "data" "/" else defaultAccessPoint envBindW) ∧
      r.mount_point = (match
          (match dictFind (getSESections cpBindW) r.seUniqueID with
           | some sect => cp_getStrOpt cpBindW sect "mount_point"
           | none => none) with
        | some mp => if mp = "" then "" else "\nGlueCESEBindMountInfo: " ++ mp
        | none => "") :=
  claim_c1_cese_bind 5 envBindW cpBindW
    ["red.example.com:2119/jobmanager-condor-default"] ["SE1"] bindsW rfl rfl rfl

end GIP
